import Mathlib

/-!
Verification of the ecowitt-data-prometheus-relay service against its
natural-language specification.

The Go program (main.go) is shallowly embedded below.  Strings are Lean
strings (Go strings are byte slices; bytes produced by percent-decoding are
represented as characters with the corresponding code point, which is
faithful for every comparison the program performs).  The float64 values
accepted by strconv.ParseFloat are represented by the accepted source
string itself: no claim depends on float arithmetic, only on whether a
value parses and on which series it is written to, so the numeric payload
can stay symbolic.  The prometheus default registry is represented as an
association list from metric identity (fully qualified name plus the three
const labels) to the stored value; gauge names (suffix _raw) and the
report_count counter name are disjoint by construction, so gauges and
counters are kept in two association lists of the one registry record.
-/

namespace EcowittRelay

/-! ### Model of url.ParseQuery (net/url), used at main.go line 90.

Go returns the partially filled map together with the first error and the
caller at main.go line 91 discards the map whenever the error is non-nil,
so an error is modelled by short-circuiting to none: the observable
some/none outcome agrees with Go for every input. -/

/-- Hexadecimal digit value of a character, none for a non-hex character
(model of ishex and unhex in net/url). -/
def unhex (c : Char) : Option Nat :=
  if '0' ≤ c ∧ c ≤ '9' then some (c.toNat - '0'.toNat)
  else if 'a' ≤ c ∧ c ≤ 'f' then some (c.toNat - 'a'.toNat + 10)
  else if 'A' ≤ c ∧ c ≤ 'F' then some (c.toNat - 'A'.toNat + 10)
  else none

/-- Model of url.QueryUnescape: percent triples decode to the denoted byte,
plus decodes to space, any other character stands for itself; a percent not
followed by two hex digits is an error. -/
def queryUnescape : List Char → Option (List Char)
  | [] => some []
  | '%' :: rest =>
    match rest with
    | a :: b :: rest2 =>
      match unhex a, unhex b with
      | some ha, some hb => (queryUnescape rest2).map (fun t => Char.ofNat (ha * 16 + hb) :: t)
      | _, _ => none
    | _ => none
  | '+' :: rest => (queryUnescape rest).map (fun t => ' ' :: t)
  | c :: rest => (queryUnescape rest).map (fun t => c :: t)

/-- Splitting the query on ampersands, as the repeated strings.Cut loop in
url.parseQuery does. -/
def splitAmp : List Char → List (List Char)
  | [] => [[]]
  | c :: rest =>
    if c == '&' then [] :: splitAmp rest
    else
      match splitAmp rest with
      | s :: ss => (c :: s) :: ss
      | [] => [[c]]

/-- Model of strings.Cut at the first equals sign: (before, after), with
after empty when no equals sign occurs. -/
def cutEq : List Char → List Char × List Char
  | [] => ([], [])
  | c :: rest =>
    if c == '=' then ([], rest)
    else
      let p := cutEq rest
      (c :: p.1, p.2)

/-- Parsed form values: association list from key to the list of values in
order of appearance, keys in first-appearance order.  Go stores this as
url.Values, a map from string to string slice; no behaviour of the handler
depends on map iteration order (distinct keys update distinct series). -/
abbrev Values := List (String × List String)

/-- Association-list lookup (first entry wins). -/
def lookupA {α β : Type} [DecidableEq α] (l : List (α × β)) (k : α) : Option β :=
  match l with
  | [] => none
  | (k2, v) :: rest => if k2 = k then some v else lookupA rest k

/-- Association-list overwrite of the first entry for a key, appended when
the key is absent. -/
def setEntry {α β : Type} [DecidableEq α] (l : List (α × β)) (k : α) (v : β) : List (α × β) :=
  match l with
  | [] => [(k, v)]
  | (k2, w) :: rest => if k2 = k then (k, v) :: rest else (k2, w) :: setEntry rest k v

/-- Model of m[key] = append(m[key], value) in url.parseQuery. -/
def valuesAdd (vs : Values) (key v : String) : Values :=
  match vs with
  | [] => [(key, [v])]
  | (k2, ws) :: rest =>
    if k2 = key then (k2, ws ++ [v]) :: rest else (k2, ws) :: valuesAdd rest key v

/-- Processing of the ampersand-separated segments by url.parseQuery: a
segment containing a semicolon is an error, an empty segment is skipped,
otherwise the segment is cut at the first equals sign and both halves are
percent-decoded. -/
def parseQuerySegs : List (List Char) → Values → Option Values
  | [], acc => some acc
  | seg :: rest, acc =>
    if seg.contains ';' then none
    else if seg.isEmpty then parseQuerySegs rest acc
    else
      let kv := cutEq seg
      match queryUnescape kv.1, queryUnescape kv.2 with
      | some k, some v => parseQuerySegs rest (valuesAdd acc (String.mk k) (String.mk v))
      | _, _ => none

/-- Model of url.ParseQuery: none exactly when Go reports a non-nil error
(in which case main.go line 93 returns without touching any metric). -/
def parseQuery (q : String) : Option Values :=
  parseQuerySegs (splitAmp q.data) []

/-! ### Model of strconv.ParseFloat (strconv), used at main.go line 119.

Only the accepted/rejected distinction matters to the program: on error the
field is skipped, otherwise the gauge is set.  The syntax below follows
strconv: optional sign; inf or infinity (any case, optional sign); nan (any
case, no sign permitted, per the fallthrough in strconv special); decimal
mantissa with optional fraction and optional e-exponent; hexadecimal
mantissa after 0x with a mandatory p-exponent.  Digit-separating
underscores and the range check (magnitudes above the largest float64 also
yield a non-nil error in Go) are not modelled; no claim distinguishes
these inputs, since every claim quantifies with the same predicate that
the embedded handler uses. -/

/-- Decimal digit test. -/
def isDigitChar (c : Char) : Bool := '0' ≤ c && c ≤ '9'

/-- Hexadecimal digit test. -/
def isHexDigitChar (c : Char) : Bool :=
  ('0' ≤ c && c ≤ '9') || ('a' ≤ c && c ≤ 'f') || ('A' ≤ c && c ≤ 'F')

/-- ASCII lower-casing of one character. -/
def lowerChar (c : Char) : Char :=
  if 'A' ≤ c ∧ c ≤ 'Z' then Char.ofNat (c.toNat + 32) else c

/-- Dropping one leading plus or minus sign. -/
def dropOptSign : List Char → List Char
  | [] => []
  | c :: rest => if c == '+' || c == '-' then rest else c :: rest

/-- Exponent digits: optional sign then at least one decimal digit. -/
def expPartOk (cs : List Char) : Bool :=
  let ds := dropOptSign cs
  !ds.isEmpty && ds.all isDigitChar

/-- Optional decimal exponent tail: empty, or e followed by exponent digits. -/
def expTail : List Char → Bool
  | [] => true
  | e :: t => (e == 'e' || e == 'E') && expPartOk t

/-- Mandatory binary-exponent tail of a hexadecimal mantissa. -/
def hexExpTail : List Char → Bool
  | [] => false
  | p :: t => (p == 'p' || p == 'P') && expPartOk t

/-- Decimal number: digits with at most one dot, at least one digit in
total, then an optional exponent consuming the rest. -/
def decNumOk (cs : List Char) : Bool :=
  let ip := cs.takeWhile isDigitChar
  let r1 := cs.dropWhile isDigitChar
  match r1 with
  | '.' :: t =>
    let fp := t.takeWhile isDigitChar
    let r2 := t.dropWhile isDigitChar
    (!ip.isEmpty || !fp.isEmpty) && expTail r2
  | _ => !ip.isEmpty && expTail r1

/-- Hexadecimal mantissa (input is the part after 0x) with mandatory
p-exponent. -/
def hexNumOk (cs : List Char) : Bool :=
  let ip := cs.takeWhile isHexDigitChar
  let r1 := cs.dropWhile isHexDigitChar
  match r1 with
  | '.' :: t =>
    let fp := t.takeWhile isHexDigitChar
    let r2 := t.dropWhile isHexDigitChar
    (!ip.isEmpty || !fp.isEmpty) && hexExpTail r2
  | _ => !ip.isEmpty && hexExpTail r1

/-- Acceptance predicate of strconv.ParseFloat with bitSize 64 as described
above. -/
def parseFloatOk (s : String) : Bool :=
  let cs := s.data
  let signed :=
    match cs with
    | c :: _ => c == '+' || c == '-'
    | [] => false
  let body := dropOptSign cs
  let lbody := body.map lowerChar
  if lbody = ['i', 'n', 'f'] ∨ lbody = ['i', 'n', 'f', 'i', 'n', 'i', 't', 'y'] then true
  else if signed = false ∧ lbody = ['n', 'a', 'n'] then true
  else
    match body with
    | '0' :: x :: rest => if lowerChar x == 'x' then hexNumOk rest else decNumOk body
    | _ => decNumOk body

/-! ### The metrics registry (prometheus DefaultRegisterer). -/

/-- Identity of a metric in the shared registry: the fully qualified name
(namespace underscore name, as prometheus BuildFQName produces) together
with the three const labels set at main.go lines 177-181 and 198-202. -/
structure MetricId where
  name : String
  model : String
  stationType : String
  sourceIp : String
deriving DecidableEq, Repr

/-- Identity of the gauge built by updateGauge (main.go lines 174-182):
name key_raw in namespace ecowitt_relay with labels model, stationType,
source_ip. -/
def gaugeId (key model station sourceIp : String) : MetricId :=
  ⟨"ecowitt_relay_" ++ key ++ "_raw", model, station, sourceIp⟩

/-- Identity of the counter built by incrementReportCount (main.go lines
195-203). -/
def counterId (model station sourceIp : String) : MetricId :=
  ⟨"ecowitt_relay_report_count", model, station, sourceIp⟩

/-- The process-wide prometheus registry state.  Gauge values are the
accepted numeric strings; the report counter is a natural number.  The two
metric families used by the program have disjoint fully qualified names
(every gauge name ends in _raw), so the single Go registry splits
faithfully into the two lists. -/
structure Registry where
  gauges : List (MetricId × String)
  reportCount : List (MetricId × Nat)
deriving DecidableEq, Repr

/-- Model of the success fragment of prometheus Register, for a collector
whose descriptor is valid: when one with the same identity is already
present the registry is unchanged and the caller receives an
AlreadyRegisteredError carrying the existing collector, which main.go
reuses; otherwise the fresh collector (with its initial value) is added.
Register can also fail with an error that is not an
AlreadyRegisteredError, on an invalid descriptor; that path is modelled by
tryRegisterCollector below, which agrees with this function exactly when
descOk holds. -/
def registerCollector {β : Type} (l : List (MetricId × β)) (id : MetricId) (fresh : β) : List (MetricId × β) :=
  if (lookupA l id).isSome then l else l ++ [(id, fresh)]

/-- Embedding of the registration-success fragment of updateGauge (main.go
lines 173-192): build the gauge identity, register it (reusing the already
registered gauge on conflict), then Set overwrites the stored value.  The
else branch at lines 186-188 (zap Fatal on any other registration error,
exiting the process with status 1) is modelled by tryUpdateGauge below,
which agrees with this function exactly when the descriptor is valid. -/
def updateGauge (reg : Registry) (model station sourceIp key : String) (value : String) : Registry :=
  let id := gaugeId key model station sourceIp
  let gs := registerCollector reg.gauges id "0"
  { reg with gauges := setEntry gs id value }

/-- Embedding of the registration-success fragment of incrementReportCount
(main.go lines 194-213): build the counter identity, register it (reusing
the existing counter on conflict), then Inc adds one to the stored count.
The Fatal else branch at lines 207-209 is modelled by
tryIncrementReportCount below, which agrees with this function exactly
when the three label values are valid UTF-8 (the counter name is fixed and
valid). -/
def incrementReportCount (reg : Registry) (model station sourceIp : String) : Registry :=
  let id := counterId model station sourceIp
  let cs := registerCollector reg.reportCount id 0
  { reg with reportCount := setEntry cs id ((lookupA cs id).getD 0 + 1) }

/-! ### The report handler (main.go lines 72-128). -/

/-- Model of url.Values.Get: first value of the key, empty string when the
key is absent or has no values. -/
def valuesGet (vs : Values) (key : String) : String :=
  match lookupA vs key with
  | some (v :: _) => v
  | _ => ""

/-- Model of url.Values.Del: remove every entry for the key. -/
def valuesDel (vs : Values) (key : String) : Values :=
  vs.filter (fun p => p.1 != key)

/-- The model label (main.go lines 97-100): the model field of the body,
replaced by unknown when Get returns the empty string. -/
def modelLabel (vs : Values) : String :=
  let m := valuesGet vs "model"
  if m = "" then "unknown" else m

/-- The stationType label (main.go lines 101-104). -/
def stationLabel (vs : Values) : String :=
  let st := valuesGet vs "stationtype"
  if st = "" then "unknown" else st

/-- The source_ip label (main.go lines 105-108): the X-Real-IP header,
replaced by unknown when Get returns the empty string (in particular when
the header is absent). -/
def ipLabel (xRealIP : String) : String :=
  if xRealIP = "" then "unknown" else xRealIP

/-- The reserved keys deleted at main.go line 111. -/
def reservedKeys : List String := ["dateutc", "PASSKEY", "model", "stationtype", "freq"]

/-- Deleting the reserved keys (main.go lines 111-113). -/
def dropReserved (vs : Values) : Values :=
  reservedKeys.foldl valuesDel vs

/-- Whether the first value of a field parses as a float64 (main.go line
119 reads right[0]; url.ParseQuery never yields an entry with an empty
value list, so the empty case is unreachable from the handler). -/
def firstValueParses (p : String × List String) : Bool :=
  match p.2 with
  | v :: _ => parseFloatOk v
  | [] => false

/-- The fields of a parsed body whose first value parses as a float64. -/
def goodEntries (vs : Values) : Values := vs.filter firstValueParses

/-- The gauge identities written by one report with the given labels. -/
def touchedIds (model station sourceIp : String) (vs : Values) : List MetricId :=
  (goodEntries vs).map (fun p => gaugeId p.1 model station sourceIp)

/-- One iteration of the emission loop (main.go lines 118-125): parse the
first value; on failure log and skip the field, on success update the
gauge. -/
def emitField (model station sourceIp : String) (reg : Registry) (p : String × List String) : Registry :=
  match p.2 with
  | [] => reg
  | v :: _ => if parseFloatOk v then updateGauge reg model station sourceIp p.1 v else reg

/-- The emission loop over all remaining fields. -/
def emitAll (reg : Registry) (model station sourceIp : String) (vs : Values) : Registry :=
  vs.foldl (emitField model station sourceIp) reg

/-- An inbound HTTP request as the handler observes it: the method, the
body (none models a failing body read at main.go line 79), and the
X-Real-IP header as returned by Header.Get (empty when absent). -/
structure Request where
  method : String
  body : Option String
  xRealIP : String
deriving DecidableEq, Repr

/-- Result of one request: the HTTP status written, the registry after the
request, and the in-process report counter read by the watchdog (the
atomic counter of main.go line 69, incremented at line 127). -/
structure HandlerResult where
  status : Nat
  registry : Registry
  wcounter : Int
deriving DecidableEq, Repr

/-- The body of the handler after a successful parse (main.go lines
96-127): capture the labels, drop the reserved keys, increment the
report_count counter, emit the gauges, bump the watchdog counter. -/
def processReport (reg : Registry) (wc : Int) (xRealIP : String) (values : Values) : HandlerResult :=
  let modelField := modelLabel values
  let stationField := stationLabel values
  let sourceIp := ipLabel xRealIP
  let remaining := dropReserved values
  let reg1 := incrementReportCount reg modelField stationField sourceIp
  let reg2 := emitAll reg1 modelField stationField sourceIp remaining
  ⟨200, reg2, wc + 1⟩

/-- The report handler (main.go lines 72-128), registration-success
fragment: non-POST gets 405 and returns; a failing body read gets 500 and
returns; 200 is written as soon as the body is read; a body that fails to
parse as a query string is then dropped without touching any metric;
otherwise the report is processed.  The full handler including the Fatal
registration path is tryHandleReport below; the two agree on every request
whose registrations all carry valid descriptors, and on every request that
never reaches a registration (non-POST, read failure, parse failure). -/
def handleReport (reg : Registry) (wc : Int) (req : Request) : HandlerResult :=
  if req.method ≠ "POST" then ⟨405, reg, wc⟩
  else
    match req.body with
    | none => ⟨500, reg, wc⟩
    | some data =>
      match parseQuery data with
      | none => ⟨200, reg, wc⟩
      | some values => processReport reg wc req.xRealIP values

/-! ### The watchdog goroutine (main.go lines 139-164).

The goroutine records the start time and the counter value, builds a
one-second ticker and then executes a single select: the body contains no
for loop, so at most one event (tick or context cancellation) is ever
consumed, after which the goroutine body ends.  Time is idealised to exact
one-second ticks and measured in nanoseconds (time.Duration units):
time.Since at the first tick is one second.  counterAt t is the value the
atomic counter load would observe t seconds after the goroutine starts. -/

/-- Nanoseconds in one second (the time.Second duration). -/
def second : Nat := 1000000000

/-- The two events the select of main.go lines 144-162 can wake on. -/
inductive WatchdogEvent where
  | tick
  | cancel
deriving DecidableEq, Repr

/-- How the watchdog goroutine ends: by exiting the whole process with
status 1, by the goroutine body ending, or by blocking forever (waiting on
an event that never arrives). -/
inductive WatchdogOutcome where
  | exitedOne
  | returnedClean
  | blocked
deriving DecidableEq, Repr

/-- Outcome of one run of the goroutine together with the number of
liveness checks (tick-branch executions) it performed. -/
structure WatchdogRun where
  outcome : WatchdogOutcome
  checksPerformed : Nat
deriving DecidableEq, Repr

/-- Embedding of the goroutine body (main.go lines 140-163) with ttl in
nanoseconds: one select on the pending events.  On a tick it loads the
counter and compares with the value loaded at start; the process exits
with status 1 only when the count is positive, unchanged, and one second
exceeds the ttl; in every other case (including the count having
increased, when Go would update lastIncrement and lastCount) the select
completes and the goroutine body ends, since no loop encloses it. -/
def watchdogGoroutine (ttl : Nat) (counterAt : Nat → Int) (events : List WatchdogEvent) : WatchdogRun :=
  match events with
  | [] => ⟨WatchdogOutcome.blocked, 0⟩
  | WatchdogEvent.cancel :: _ => ⟨WatchdogOutcome.returnedClean, 0⟩
  | WatchdogEvent.tick :: _ =>
    let lastCount := counterAt 0
    let count := counterAt 1
    if 0 < count then
      if count = lastCount then
        if second > ttl then ⟨WatchdogOutcome.exitedOne, 1⟩
        else ⟨WatchdogOutcome.returnedClean, 1⟩
      else ⟨WatchdogOutcome.returnedClean, 1⟩
    else ⟨WatchdogOutcome.returnedClean, 1⟩

/-- Counter trace of the failing scenario for the improved-watchdog claim:
one report arrives during the first second and none afterwards, so the
counter is 0 at start and 1 from the first tick on. -/
def staleTrace : Nat → Int := fun t => if t = 0 then 0 else 1

/-- Counter trace of a process that never completes a successfully parsed
report: the counter stays at zero forever. -/
def zeroTrace : Nat → Int := fun _ => 0

/-! ### Spec-side definitions, used only to compare against the code. -/

/-- The model label as the specification words it: the model field of the
body, defaulting to unknown when the field is absent or its value is
empty. -/
def specModelLabel (vs : Values) : String :=
  match lookupA vs "model" with
  | some (v :: _) => if v = "" then "unknown" else v
  | _ => "unknown"

/-- The stationType label as the specification words it. -/
def specStationLabel (vs : Values) : String :=
  match lookupA vs "stationtype" with
  | some (v :: _) => if v = "" then "unknown" else v
  | _ => "unknown"

/-- Well-formedness of parsed form values: keys occur once each and every
entry carries at least one value.  Every result of parseQuery satisfies
this. -/
def ValuesWF (vs : Values) : Prop :=
  (vs.map Prod.fst).Nodup ∧ ∀ p ∈ vs, p.2 ≠ []

/-! ### The registration error path.

prometheus Register validates the descriptor before looking for a
conflict: a fully qualified name that fails model.IsValidMetricName
(legacy scheme, as in the client library this project builds against) or a
label value that is not valid UTF-8 makes Register return an error that is
not an AlreadyRegisteredError, and both callers in main.go (the else
branches at lines 186-188 and 207-209) then call zap Fatal, which exits
the process with status 1.  The total functions above model the
registration-success fragment; the Option-valued functions below model the
full behaviour, with none standing for the Fatal process exit.  The label
names source_ip, model and stationType are fixed and valid, so only the
metric name and the three label values can invalidate a descriptor
here. -/

/-- First character of a valid legacy metric name: one of [a-zA-Z_:]. -/
def metricNameStartOk (c : Char) : Bool :=
  ('a' ≤ c && c ≤ 'z') || ('A' ≤ c && c ≤ 'Z') || c == '_' || c == ':'

/-- Later characters of a valid legacy metric name also allow digits. -/
def metricNameCharOk (c : Char) : Bool :=
  metricNameStartOk c || ('0' ≤ c && c ≤ '9')

/-- Model of model.IsValidMetricName under the legacy validation scheme:
nonempty, first character in [a-zA-Z_:], the rest in [a-zA-Z0-9_:]. -/
def validMetricName (s : String) : Bool :=
  match s.data with
  | [] => false
  | c :: rest => metricNameStartOk c && rest.all metricNameCharOk

/-- Byte range test, reading a character of this byte-string model as the
byte it stands for. -/
def byteInRange (lo hi : Nat) (c : Char) : Bool :=
  lo ≤ c.toNat && c.toNat ≤ hi

/-- Model of utf8.ValidString over byte strings (strings in this embedding
stand for Go byte strings, one character per byte; percent-decoding can
produce any byte).  Follows the Go utf8 accept ranges: no overlong
encodings, no surrogates, nothing above the maximal code point; a code
above 0xFF never stands for a byte and is rejected. -/
def utf8ValidBytes : List Char → Bool
  | [] => true
  | c :: rest =>
    let b := c.toNat
    if b < 0x80 then utf8ValidBytes rest
    else if 0xC2 ≤ b ∧ b ≤ 0xDF then
      match rest with
      | c1 :: r => byteInRange 0x80 0xBF c1 && utf8ValidBytes r
      | [] => false
    else if b = 0xE0 then
      match rest with
      | c1 :: c2 :: r =>
        byteInRange 0xA0 0xBF c1 && byteInRange 0x80 0xBF c2 && utf8ValidBytes r
      | _ => false
    else if (0xE1 ≤ b ∧ b ≤ 0xEC) ∨ (0xEE ≤ b ∧ b ≤ 0xEF) then
      match rest with
      | c1 :: c2 :: r =>
        byteInRange 0x80 0xBF c1 && byteInRange 0x80 0xBF c2 && utf8ValidBytes r
      | _ => false
    else if b = 0xED then
      match rest with
      | c1 :: c2 :: r =>
        byteInRange 0x80 0x9F c1 && byteInRange 0x80 0xBF c2 && utf8ValidBytes r
      | _ => false
    else if b = 0xF0 then
      match rest with
      | c1 :: c2 :: c3 :: r =>
        byteInRange 0x90 0xBF c1 && byteInRange 0x80 0xBF c2 && byteInRange 0x80 0xBF c3
          && utf8ValidBytes r
      | _ => false
    else if 0xF1 ≤ b ∧ b ≤ 0xF3 then
      match rest with
      | c1 :: c2 :: c3 :: r =>
        byteInRange 0x80 0xBF c1 && byteInRange 0x80 0xBF c2 && byteInRange 0x80 0xBF c3
          && utf8ValidBytes r
      | _ => false
    else if b = 0xF4 then
      match rest with
      | c1 :: c2 :: c3 :: r =>
        byteInRange 0x80 0x8F c1 && byteInRange 0x80 0xBF c2 && byteInRange 0x80 0xBF c3
          && utf8ValidBytes r
      | _ => false
    else false

/-- Label values must be valid UTF-8 (prometheus descriptor validation). -/
def labelValueOk (s : String) : Bool := utf8ValidBytes s.data

/-- Validity of the descriptor built from a metric identity: the fully
qualified name passes IsValidMetricName and the three label values are
valid UTF-8.  An invalid descriptor makes Register fail with an error
other than AlreadyRegisteredError. -/
def descOk (id : MetricId) : Bool :=
  validMetricName id.name && labelValueOk id.model && labelValueOk id.stationType
    && labelValueOk id.sourceIp

/-- Whether the gauge name built for a field key is a valid metric name. -/
def gaugeNameOk (key : String) : Bool :=
  validMetricName ("ecowitt_relay_" ++ key ++ "_raw")

/-- Whether the three label values of a report are valid UTF-8. -/
def labelsOk (model station sourceIp : String) : Bool :=
  labelValueOk model && labelValueOk station && labelValueOk sourceIp

/-- Full model of prometheus Register: an invalid descriptor is reported
as an error that is not an AlreadyRegisteredError (none here; the callers
in main.go exit the process on it); a valid descriptor registers, reusing
the already registered collector on conflict exactly as registerCollector
does. -/
def tryRegisterCollector {β : Type} (l : List (MetricId × β)) (id : MetricId) (fresh : β) :
    Option (List (MetricId × β)) :=
  if descOk id then some (registerCollector l id fresh) else none

/-- Full embedding of updateGauge (main.go lines 173-192) including the
Fatal else-branch at lines 186-188: none means the process exits with
status 1 and the gauge is never written. -/
def tryUpdateGauge (reg : Registry) (model station sourceIp key : String) (value : String) :
    Option Registry :=
  let id := gaugeId key model station sourceIp
  match tryRegisterCollector reg.gauges id "0" with
  | none => none
  | some gs => some { reg with gauges := setEntry gs id value }

/-- Full embedding of incrementReportCount (main.go lines 194-213)
including the Fatal else-branch at lines 207-209. -/
def tryIncrementReportCount (reg : Registry) (model station sourceIp : String) :
    Option Registry :=
  let id := counterId model station sourceIp
  match tryRegisterCollector reg.reportCount id 0 with
  | none => none
  | some cs => some { reg with reportCount := setEntry cs id ((lookupA cs id).getD 0 + 1) }

/-- One iteration of the emission loop with the Fatal path: a field whose
first value does not parse is skipped, a parseable one updates its gauge
or kills the process. -/
def tryEmitField (model station sourceIp : String) (reg : Registry) (p : String × List String) :
    Option Registry :=
  match p.2 with
  | [] => some reg
  | v :: _ =>
    if parseFloatOk v then tryUpdateGauge reg model station sourceIp p.1 v else some reg

/-- The emission loop with the Fatal path: the loop stops at the first
field whose registration kills the process. -/
def tryEmitAll (model station sourceIp : String) : Registry → Values → Option Registry
  | reg, [] => some reg
  | reg, p :: rest =>
    match tryEmitField model station sourceIp reg p with
    | none => none
    | some reg2 => tryEmitAll model station sourceIp reg2 rest

/-- The body of the handler after a successful parse, with the Fatal path:
none means the process exited with status 1 during incrementReportCount or
during the gauge loop. -/
def tryProcessReport (reg : Registry) (wc : Int) (xRealIP : String) (values : Values) :
    Option HandlerResult :=
  let modelField := modelLabel values
  let stationField := stationLabel values
  let sourceIp := ipLabel xRealIP
  let remaining := dropReserved values
  match tryIncrementReportCount reg modelField stationField sourceIp with
  | none => none
  | some reg1 =>
    match tryEmitAll modelField stationField sourceIp reg1 remaining with
    | none => none
    | some reg2 => some ⟨200, reg2, wc + 1⟩

/-- The full report handler including the Fatal registration path: none
means the process exited with status 1 while handling the request.  On
every input on which no registration fails it returns some result and
agrees with handleReport, the registration-success fragment. -/
def tryHandleReport (reg : Registry) (wc : Int) (req : Request) : Option HandlerResult :=
  if req.method ≠ "POST" then some ⟨405, reg, wc⟩
  else
    match req.body with
    | none => some ⟨500, reg, wc⟩
    | some data =>
      match parseQuery data with
      | none => some ⟨200, reg, wc⟩
      | some values => tryProcessReport reg wc req.xRealIP values

/-! ### Association-list and registry lemmas. -/

theorem lookupA_append_of_none {α β : Type} [DecidableEq α] (l : List (α × β)) (k : α) (f : β)
    (h : lookupA l k = none) : lookupA (l ++ [(k, f)]) k = some f := by
  induction l with
  | nil => simp [lookupA]
  | cons p rest ih =>
    obtain ⟨k2, w⟩ := p
    by_cases hk : k2 = k
    · simp [lookupA, hk] at h
    · simp [lookupA, hk] at h ⊢
      exact ih h

theorem lookupA_append_of_ne {α β : Type} [DecidableEq α] (l : List (α × β)) (k k2 : α) (f : β)
    (h : k2 ≠ k) : lookupA (l ++ [(k, f)]) k2 = lookupA l k2 := by
  induction l with
  | nil => simp [lookupA, Ne.symm h]
  | cons p rest ih =>
    obtain ⟨k3, w⟩ := p
    by_cases hk : k3 = k2 <;> simp [lookupA, hk, ih]

theorem lookupA_setEntry_self {α β : Type} [DecidableEq α] (l : List (α × β)) (k : α) (v : β) :
    lookupA (setEntry l k v) k = some v := by
  induction l with
  | nil => simp [setEntry, lookupA]
  | cons p rest ih =>
    obtain ⟨k2, w⟩ := p
    by_cases hk : k2 = k <;> simp [setEntry, lookupA, hk, ih]

theorem lookupA_setEntry_ne {α β : Type} [DecidableEq α] (l : List (α × β)) (k k2 : α) (v : β)
    (h : k2 ≠ k) : lookupA (setEntry l k v) k2 = lookupA l k2 := by
  induction l with
  | nil => simp [setEntry, lookupA, Ne.symm h]
  | cons p rest ih =>
    obtain ⟨k3, w⟩ := p
    by_cases hk : k3 = k
    · subst hk
      simp [setEntry, lookupA, Ne.symm h]
    · by_cases hk2 : k3 = k2 <;> simp [setEntry, lookupA, hk, hk2, h, ih]

theorem setEntry_length {α β : Type} [DecidableEq α] (l : List (α × β)) (k : α) (v : β)
    (h : (lookupA l k).isSome) : (setEntry l k v).length = l.length := by
  induction l with
  | nil => simp [lookupA] at h
  | cons p rest ih =>
    obtain ⟨k2, w⟩ := p
    by_cases hk : k2 = k
    · simp [setEntry, hk]
    · simp only [lookupA, hk, if_false] at h
      simp [setEntry, hk, ih h]

theorem registerCollector_of_isSome {β : Type} (l : List (MetricId × β)) (id : MetricId) (f : β)
    (h : (lookupA l id).isSome) : registerCollector l id f = l := by
  simp [registerCollector, h]

theorem lookupA_registerCollector_ne {β : Type} (l : List (MetricId × β)) (id id2 : MetricId) (f : β)
    (h : id2 ≠ id) : lookupA (registerCollector l id f) id2 = lookupA l id2 := by
  by_cases hs : (lookupA l id).isSome
  · simp [registerCollector, hs]
  · simp only [registerCollector, hs, if_false]
    exact lookupA_append_of_ne l id id2 f h

theorem getD_lookupA_registerCollector {β : Type} (l : List (MetricId × β)) (id : MetricId) (f : β) :
    (lookupA (registerCollector l id f) id).getD f = (lookupA l id).getD f := by
  cases h : lookupA l id with
  | some w => simp [registerCollector, h]
  | none =>
    have hs : registerCollector l id f = l ++ [(id, f)] := by
      simp [registerCollector, h]
    rw [hs, lookupA_append_of_none l id f h]
    rfl

theorem updateGauge_reportCount (reg : Registry) (m s ip k v : String) :
    (updateGauge reg m s ip k v).reportCount = reg.reportCount := rfl

theorem lookupA_updateGauge_self (reg : Registry) (m s ip k v : String) :
    lookupA (updateGauge reg m s ip k v).gauges (gaugeId k m s ip) = some v :=
  lookupA_setEntry_self _ _ _

theorem lookupA_updateGauge_ne (reg : Registry) (m s ip k v : String) (id : MetricId)
    (h : id ≠ gaugeId k m s ip) :
    lookupA (updateGauge reg m s ip k v).gauges id = lookupA reg.gauges id := by
  simp only [updateGauge]
  rw [lookupA_setEntry_ne _ _ _ _ h, lookupA_registerCollector_ne _ _ _ _ h]

theorem updateGauge_length (reg : Registry) (m s ip k v : String)
    (h : (lookupA reg.gauges (gaugeId k m s ip)).isSome) :
    (updateGauge reg m s ip k v).gauges.length = reg.gauges.length := by
  simp only [updateGauge]
  rw [registerCollector_of_isSome _ _ _ h]
  exact setEntry_length _ _ _ h

theorem incrementReportCount_gauges (reg : Registry) (m s ip : String) :
    (incrementReportCount reg m s ip).gauges = reg.gauges := rfl

theorem lookupA_incrementReportCount_self (reg : Registry) (m s ip : String) :
    lookupA (incrementReportCount reg m s ip).reportCount (counterId m s ip)
      = some ((lookupA reg.reportCount (counterId m s ip)).getD 0 + 1) := by
  simp only [incrementReportCount]
  rw [lookupA_setEntry_self, getD_lookupA_registerCollector]

theorem lookupA_incrementReportCount_ne (reg : Registry) (m s ip : String) (id : MetricId)
    (h : id ≠ counterId m s ip) :
    lookupA (incrementReportCount reg m s ip).reportCount id = lookupA reg.reportCount id := by
  simp only [incrementReportCount]
  rw [lookupA_setEntry_ne _ _ _ _ h, lookupA_registerCollector_ne _ _ _ _ h]

theorem gaugeId_inj_key {k k2 m s ip : String} (h : gaugeId k m s ip = gaugeId k2 m s ip) :
    k = k2 := by
  have hn : "ecowitt_relay_" ++ k ++ "_raw" = "ecowitt_relay_" ++ k2 ++ "_raw" :=
    congrArg MetricId.name h
  have hd := congrArg String.data hn
  simp only [String.data_append] at hd
  exact String.ext (List.append_cancel_left (List.append_cancel_right hd))

/-! ### Well-formedness of values produced by parseQuery. -/

theorem nodup_append_singleton {α : Type} (l : List α) (a : α) (hnd : l.Nodup) (ha : a ∉ l) :
    (l ++ [a]).Nodup := by
  induction l with
  | nil => simp
  | cons b rest ih =>
    simp only [List.nodup_cons] at hnd
    simp only [List.mem_cons, not_or] at ha
    simp only [List.cons_append, List.nodup_cons, List.mem_append, List.mem_singleton]
    constructor
    · intro hb
      rcases hb with hb | hb
      · exact hnd.1 hb
      · exact ha.1 hb.symm
    · exact ih hnd.2 ha.2

theorem valuesAdd_map_fst (vs : Values) (key v : String) :
    (valuesAdd vs key v).map Prod.fst
      = if key ∈ vs.map Prod.fst then vs.map Prod.fst else vs.map Prod.fst ++ [key] := by
  induction vs with
  | nil => simp [valuesAdd]
  | cons p rest ih =>
    obtain ⟨k2, ws⟩ := p
    by_cases hk : k2 = key
    · subst hk
      simp [valuesAdd, List.mem_cons]
    · simp only [valuesAdd, hk, if_false, List.map_cons]
      rw [ih]
      by_cases hm : key ∈ rest.map Prod.fst
      · simp [hm, List.mem_cons, Ne.symm hk]
      · simp [hm, List.mem_cons, Ne.symm hk]

theorem valuesAdd_snd_ne_nil (vs : Values) (key v : String)
    (h : ∀ p ∈ vs, p.2 ≠ []) : ∀ p ∈ valuesAdd vs key v, p.2 ≠ [] := by
  induction vs with
  | nil =>
    intro p hp
    rcases List.mem_singleton.mp hp with rfl
    simp
  | cons q rest ih =>
    obtain ⟨k2, ws⟩ := q
    intro p hp
    simp only [valuesAdd] at hp
    by_cases hk : k2 = key
    · rw [if_pos hk] at hp
      rcases List.mem_cons.mp hp with rfl | hp2
      · simp
      · exact h p (List.mem_cons_of_mem _ hp2)
    · rw [if_neg hk] at hp
      rcases List.mem_cons.mp hp with rfl | hp2
      · exact h _ (List.mem_cons_self _ _)
      · exact ih (fun q2 hq2 => h q2 (List.mem_cons_of_mem _ hq2)) p hp2

theorem valuesAdd_wf (vs : Values) (key v : String) (h : ValuesWF vs) :
    ValuesWF (valuesAdd vs key v) := by
  constructor
  · rw [valuesAdd_map_fst]
    by_cases hm : key ∈ vs.map Prod.fst
    · rw [if_pos hm]
      exact h.1
    · rw [if_neg hm]
      exact nodup_append_singleton _ _ h.1 hm
  · exact valuesAdd_snd_ne_nil vs key v h.2

theorem parseQuerySegs_wf : ∀ (segs : List (List Char)) (acc vs : Values),
    ValuesWF acc → parseQuerySegs segs acc = some vs → ValuesWF vs := by
  intro segs
  induction segs with
  | nil =>
    intro acc vs hacc h
    simp only [parseQuerySegs, Option.some.injEq] at h
    exact h ▸ hacc
  | cons seg rest ih =>
    intro acc vs hacc h
    simp only [parseQuerySegs] at h
    by_cases h1 : seg.contains ';'
    · rw [if_pos h1] at h
      exact absurd h (by simp)
    · rw [if_neg h1] at h
      by_cases h2 : seg.isEmpty
      · rw [if_pos h2] at h
        exact ih acc vs hacc h
      · rw [if_neg h2] at h
        rcases hq1 : queryUnescape (cutEq seg).1 with _ | kk
        · simp [hq1] at h
        · rcases hq2 : queryUnescape (cutEq seg).2 with _ | vv
          · simp [hq1, hq2] at h
          · simp only [hq1, hq2] at h
            exact ih _ vs (valuesAdd_wf _ _ _ hacc) h

theorem parseQuery_wf (q : String) (vs : Values) (h : parseQuery q = some vs) : ValuesWF vs :=
  parseQuerySegs_wf _ _ _ ⟨by simp, by simp⟩ h

/-! ### Deleting the reserved keys. -/

theorem mem_valuesDel (vs : Values) (key : String) (p : String × List String)
    (h : p ∈ valuesDel vs key) : p ∈ vs ∧ p.1 ≠ key := by
  have h2 := List.mem_filter.mp h
  refine ⟨h2.1, ?_⟩
  simpa using h2.2

theorem valuesDel_wf (vs : Values) (key : String) (h : ValuesWF vs) : ValuesWF (valuesDel vs key) := by
  constructor
  · exact List.Nodup.sublist (List.Sublist.map Prod.fst (List.filter_sublist vs)) h.1
  · intro p hp
    exact h.2 p (mem_valuesDel vs key p hp).1

theorem mem_foldl_valuesDel : ∀ (ks : List String) (vs : Values) (p : String × List String),
    p ∈ ks.foldl valuesDel vs → p ∈ vs ∧ p.1 ∉ ks := by
  intro ks
  induction ks with
  | nil =>
    intro vs p h
    exact ⟨h, by simp⟩
  | cons k rest ih =>
    intro vs p h
    have h2 := ih (valuesDel vs k) p h
    have h3 := mem_valuesDel vs k p h2.1
    refine ⟨h3.1, ?_⟩
    simp only [List.mem_cons, not_or]
    exact ⟨h3.2, h2.2⟩

theorem wf_foldl_valuesDel : ∀ (ks : List String) (vs : Values),
    ValuesWF vs → ValuesWF (ks.foldl valuesDel vs) := by
  intro ks
  induction ks with
  | nil => intro vs h; exact h
  | cons k rest ih => intro vs h; exact ih _ (valuesDel_wf vs k h)

theorem mem_dropReserved (vs : Values) (p : String × List String) (h : p ∈ dropReserved vs) :
    p ∈ vs ∧ p.1 ∉ reservedKeys :=
  mem_foldl_valuesDel reservedKeys vs p h

theorem dropReserved_wf (vs : Values) (h : ValuesWF vs) : ValuesWF (dropReserved vs) :=
  wf_foldl_valuesDel reservedKeys vs h

/-! ### The emission loop. -/

theorem emitAll_cons (reg : Registry) (m s ip : String) (p : String × List String) (rest : Values) :
    emitAll reg m s ip (p :: rest) = emitAll (emitField m s ip reg p) m s ip rest := rfl

theorem emitField_reportCount (m s ip : String) (reg : Registry) (p : String × List String) :
    (emitField m s ip reg p).reportCount = reg.reportCount := by
  obtain ⟨k, ws⟩ := p
  cases ws with
  | nil => rfl
  | cons v t =>
    by_cases hv : parseFloatOk v <;> simp [emitField, hv, updateGauge_reportCount]

theorem emitAll_reportCount (reg : Registry) (m s ip : String) (vs : Values) :
    (emitAll reg m s ip vs).reportCount = reg.reportCount := by
  induction vs generalizing reg with
  | nil => rfl
  | cons p rest ih =>
    rw [emitAll_cons, ih, emitField_reportCount]

theorem goodEntries_cons (p : String × List String) (vs : Values) :
    goodEntries (p :: vs) = if firstValueParses p then p :: goodEntries vs else goodEntries vs := by
  simp [goodEntries, List.filter_cons]

theorem touchedIds_cons (m s ip : String) (p : String × List String) (vs : Values) :
    touchedIds m s ip (p :: vs)
      = if firstValueParses p then gaugeId p.1 m s ip :: touchedIds m s ip vs
        else touchedIds m s ip vs := by
  simp only [touchedIds, goodEntries_cons]
  by_cases hp : firstValueParses p <;> simp [hp]

theorem touchedIds_length (m s ip : String) (vs : Values) :
    (touchedIds m s ip vs).length = (goodEntries vs).length := by
  simp [touchedIds]

theorem gaugeId_not_touched (m s ip k : String) (vs : Values)
    (h : k ∉ (goodEntries vs).map Prod.fst) : gaugeId k m s ip ∉ touchedIds m s ip vs := by
  intro hmem
  rcases List.mem_map.mp hmem with ⟨q, hq, hqe⟩
  exact h ((gaugeId_inj_key hqe) ▸ List.mem_map_of_mem Prod.fst hq)

theorem mem_touchedIds (m s ip : String) (vs : Values) (id : MetricId) (h : id ∈ touchedIds m s ip vs) :
    ∃ p, p ∈ goodEntries vs ∧ id = gaugeId p.1 m s ip := by
  rcases List.mem_map.mp h with ⟨p, hp, hpe⟩
  exact ⟨p, hp, hpe.symm⟩

theorem touchedIds_nodup (m s ip : String) (vs : Values) (h : (vs.map Prod.fst).Nodup) :
    (touchedIds m s ip vs).Nodup := by
  have h2 : ((goodEntries vs).map Prod.fst).Nodup :=
    List.Nodup.sublist (List.Sublist.map Prod.fst (List.filter_sublist vs)) h
  have h3 : touchedIds m s ip vs
      = ((goodEntries vs).map Prod.fst).map (fun k2 => gaugeId k2 m s ip) := by
    rw [List.map_map]
    rfl
  rw [h3]
  exact List.Nodup.map (fun a b hab => gaugeId_inj_key hab) h2

theorem lookupA_emitAll_not_touched (m s ip : String) (id : MetricId) :
    ∀ (vs : Values) (reg : Registry), id ∉ touchedIds m s ip vs →
      lookupA (emitAll reg m s ip vs).gauges id = lookupA reg.gauges id := by
  intro vs
  induction vs with
  | nil =>
    intro reg _
    rfl
  | cons p rest ih =>
    intro reg h
    rw [emitAll_cons]
    obtain ⟨k, ws⟩ := p
    cases ws with
    | nil => exact ih _ (by simpa [touchedIds_cons, firstValueParses] using h)
    | cons v t =>
      by_cases hv : parseFloatOk v
      · have hfp : firstValueParses (k, v :: t) = true := by simp [firstValueParses, hv]
        rw [touchedIds_cons, if_pos hfp] at h
        simp only [List.mem_cons, not_or] at h
        have he : emitField m s ip reg (k, v :: t) = updateGauge reg m s ip k v := by
          simp [emitField, hv]
        rw [he, ih _ h.2]
        exact lookupA_updateGauge_ne reg m s ip k v id h.1
      · have he : emitField m s ip reg (k, v :: t) = reg := by
          simp [emitField, hv]
        rw [he]
        refine ih _ ?_
        rw [touchedIds_cons, if_neg (by simp [firstValueParses, hv])] at h
        exact h

theorem lookupA_emitAll_good (m s ip k v : String) (rest : List String)
    (hok : parseFloatOk v = true) :
    ∀ (vs : Values) (reg : Registry), (vs.map Prod.fst).Nodup → (k, v :: rest) ∈ vs →
      lookupA (emitAll reg m s ip vs).gauges (gaugeId k m s ip) = some v := by
  intro vs
  induction vs with
  | nil =>
    intro reg _ hmem
    simp at hmem
  | cons p tail ih =>
    intro reg hnd hmem
    rw [emitAll_cons]
    rcases List.mem_cons.mp hmem with heq | hmem2
    · subst heq
      have he : emitField m s ip reg (k, v :: rest) = updateGauge reg m s ip k v := by
        simp [emitField, hok]
      rw [he]
      have hknotin : k ∉ tail.map Prod.fst := by
        simp only [List.map_cons, List.nodup_cons] at hnd
        exact hnd.1
      have hnt : gaugeId k m s ip ∉ touchedIds m s ip tail :=
        gaugeId_not_touched m s ip k tail
          (fun hx => hknotin ((List.Sublist.map Prod.fst (List.filter_sublist tail)).subset hx))
      rw [lookupA_emitAll_not_touched m s ip _ tail _ hnt]
      exact lookupA_updateGauge_self reg m s ip k v
    · have hnd2 : (tail.map Prod.fst).Nodup := by
        simp only [List.map_cons, List.nodup_cons] at hnd
        exact hnd.2
      exact ih _ hnd2 hmem2

/-! ### Handler bridges. -/

theorem handleReport_non_post_eq (reg : Registry) (wc : Int) (req : Request)
    (h : req.method ≠ "POST") : handleReport reg wc req = ⟨405, reg, wc⟩ := by
  simp [handleReport, h]

theorem handleReport_read_error (reg : Registry) (wc : Int) (req : Request)
    (hm : req.method = "POST") (hb : req.body = none) :
    handleReport reg wc req = ⟨500, reg, wc⟩ := by
  simp [handleReport, hm, hb]

theorem handleReport_noparse (reg : Registry) (wc : Int) (req : Request) (data : String)
    (hm : req.method = "POST") (hb : req.body = some data) (hp : parseQuery data = none) :
    handleReport reg wc req = ⟨200, reg, wc⟩ := by
  simp [handleReport, hm, hb, hp]

theorem handleReport_parsed (reg : Registry) (wc : Int) (req : Request) (data : String) (vs : Values)
    (hm : req.method = "POST") (hb : req.body = some data) (hp : parseQuery data = some vs) :
    handleReport reg wc req = processReport reg wc req.xRealIP vs := by
  simp [handleReport, hm, hb, hp]

theorem processReport_registry (reg : Registry) (wc : Int) (xip : String) (vs : Values) :
    (processReport reg wc xip vs).registry
      = emitAll (incrementReportCount reg (modelLabel vs) (stationLabel vs) (ipLabel xip))
          (modelLabel vs) (stationLabel vs) (ipLabel xip) (dropReserved vs) := rfl

theorem processReport_gauges_not_touched (reg : Registry) (wc : Int) (xip : String) (vs : Values)
    (id : MetricId)
    (h : id ∉ touchedIds (modelLabel vs) (stationLabel vs) (ipLabel xip) (dropReserved vs)) :
    lookupA (processReport reg wc xip vs).registry.gauges id = lookupA reg.gauges id := by
  rw [processReport_registry, lookupA_emitAll_not_touched _ _ _ _ _ _ h,
    incrementReportCount_gauges]

theorem processReport_gauges_good (reg : Registry) (wc : Int) (xip : String) (vs : Values)
    (k v : String) (rest : List String) (hwf : ValuesWF vs)
    (hmem : (k, v :: rest) ∈ dropReserved vs) (hok : parseFloatOk v = true) :
    lookupA (processReport reg wc xip vs).registry.gauges
      (gaugeId k (modelLabel vs) (stationLabel vs) (ipLabel xip)) = some v := by
  rw [processReport_registry]
  exact lookupA_emitAll_good _ _ _ k v rest hok (dropReserved vs) _
    (dropReserved_wf vs hwf).1 hmem

theorem processReport_reportCount_self (reg : Registry) (wc : Int) (xip : String) (vs : Values) :
    lookupA (processReport reg wc xip vs).registry.reportCount
        (counterId (modelLabel vs) (stationLabel vs) (ipLabel xip))
      = some ((lookupA reg.reportCount
          (counterId (modelLabel vs) (stationLabel vs) (ipLabel xip))).getD 0 + 1) := by
  rw [processReport_registry, emitAll_reportCount]
  exact lookupA_incrementReportCount_self reg _ _ _

theorem modelLabel_eq_spec (vs : Values) : modelLabel vs = specModelLabel vs := by
  simp only [modelLabel, specModelLabel, valuesGet]
  cases h : lookupA vs "model" with
  | none => simp
  | some ws =>
    cases ws with
    | nil => simp
    | cons v t => rfl

theorem stationLabel_eq_spec (vs : Values) : stationLabel vs = specStationLabel vs := by
  simp only [stationLabel, specStationLabel, valuesGet]
  cases h : lookupA vs "stationtype" with
  | none => simp
  | some ws =>
    cases ws with
    | nil => simp
    | cons v t => rfl

/-! ### The claims. -/

/-- C1: the specification (improved watchdog, TTL 10 s) requires the
process to exit with status 1 within one tick of the report counter having
been unchanged for eleven consecutive seconds, the check running on every
one-second tick.  The code cannot do this: the goroutine body at main.go
lines 140-163 is a single select with no enclosing for loop.  In the
failing scenario (one report during the first second, then silence, with a
tick available every second) the goroutine performs exactly one liveness
check, returns, and the process never exits. -/
theorem watchdog_dead_after_first_tick :
    watchdogGoroutine (10 * second) staleTrace (List.replicate 12 WatchdogEvent.tick)
      = ⟨WatchdogOutcome.returnedClean, 1⟩ := by decide

/-- C8: for every run with a positive TTL the watchdog background task
evaluates its liveness condition at most once: after the first one-second
tick or a context cancellation it either exits the process or returns, and
never performs a second check. -/
theorem watchdog_checks_at_most_once (ttl : Nat) (counterAt : Nat → Int)
    (events : List WatchdogEvent) (_hpos : 0 < ttl) :
    (watchdogGoroutine ttl counterAt events).checksPerformed ≤ 1 ∧
      (events ≠ [] →
        (watchdogGoroutine ttl counterAt events).outcome = WatchdogOutcome.exitedOne ∨
        (watchdogGoroutine ttl counterAt events).outcome = WatchdogOutcome.returnedClean) := by
  cases events with
  | nil => exact ⟨by simp [watchdogGoroutine], fun h => absurd rfl h⟩
  | cons e rest =>
    cases e with
    | cancel => exact ⟨by simp [watchdogGoroutine], fun _ => Or.inr rfl⟩
    | tick =>
      constructor
      · simp only [watchdogGoroutine]
        split
        · split
          · split <;> simp
          · simp
        · simp
      · intro _
        simp only [watchdogGoroutine]
        split
        · split
          · split
            · exact Or.inl rfl
            · exact Or.inr rfl
          · exact Or.inr rfl
        · exact Or.inr rfl

/-- Witness for the at-most-once watchdog theorem: TTL 10 s, the stale
counter trace, one pending tick. -/
theorem watchdog_checks_at_most_once_witness :
    (watchdogGoroutine (10 * second) staleTrace [WatchdogEvent.tick]).checksPerformed ≤ 1 ∧
      ((watchdogGoroutine (10 * second) staleTrace [WatchdogEvent.tick]).outcome
          = WatchdogOutcome.exitedOne ∨
       (watchdogGoroutine (10 * second) staleTrace [WatchdogEvent.tick]).outcome
          = WatchdogOutcome.returnedClean) := by
  have h := watchdog_checks_at_most_once (10 * second) staleTrace [WatchdogEvent.tick] (by decide)
  exact ⟨h.1, h.2 (by decide)⟩

/-- C9: the watchdog never exits the process while the total report counter
is zero: with an identically zero counter trace no pending events make the
outcome an exit, whatever the TTL and however many ticks elapse. -/
theorem watchdog_no_exit_when_counter_zero (ttl : Nat) (counterAt : Nat → Int)
    (events : List WatchdogEvent) (h : ∀ t, counterAt t = 0) :
    (watchdogGoroutine ttl counterAt events).outcome ≠ WatchdogOutcome.exitedOne := by
  cases events with
  | nil => simp [watchdogGoroutine]
  | cons e rest =>
    cases e with
    | cancel => simp [watchdogGoroutine]
    | tick => simp [watchdogGoroutine, h 1]

/-- Witness for the zero-counter watchdog theorem. -/
theorem watchdog_no_exit_when_counter_zero_witness :
    (watchdogGoroutine (10 * second) zeroTrace [WatchdogEvent.tick]).outcome
      ≠ WatchdogOutcome.exitedOne :=
  watchdog_no_exit_when_counter_zero (10 * second) zeroTrace [WatchdogEvent.tick] (fun _ => rfl)

/-- C3: a POST whose body reads successfully but does not parse as URL
encoded query syntax gets status 200 and the request changes nothing: the
whole handler result carries the input registry and counter unchanged. -/
theorem malformed_body_200_no_changes (reg : Registry) (wc : Int) (req : Request) (data : String)
    (hm : req.method = "POST") (hb : req.body = some data) (hp : parseQuery data = none) :
    handleReport reg wc req = ⟨200, reg, wc⟩ :=
  handleReport_noparse reg wc req data hm hb hp

/-- Witness for the malformed-body theorem on the body that is a lone
percent sign with invalid escape. -/
theorem malformed_body_200_no_changes_witness :
    handleReport ⟨[], []⟩ 0 ⟨"POST", some "%zz", ""⟩ = ⟨200, ⟨[], []⟩, 0⟩ :=
  malformed_body_200_no_changes ⟨[], []⟩ 0 ⟨"POST", some "%zz", ""⟩ "%zz" rfl rfl (by decide)

/-- C6: a request to the reporting path with a method other than POST gets
status 405 (method not allowed) and has no side effects: registry (gauges
and report_count alike) and watchdog counter are returned unchanged. -/
theorem non_post_method_not_allowed (reg : Registry) (wc : Int) (req : Request)
    (h : req.method ≠ "POST") :
    handleReport reg wc req = ⟨405, reg, wc⟩ :=
  handleReport_non_post_eq reg wc req h

/-- Witness for the non-POST theorem on a GET request. -/
theorem non_post_method_not_allowed_witness :
    handleReport ⟨[], []⟩ 0 ⟨"GET", some "tempf=7", ""⟩ = ⟨405, ⟨[], []⟩, 0⟩ :=
  non_post_method_not_allowed ⟨[], []⟩ 0 ⟨"GET", some "tempf=7", ""⟩ (by decide)

/-- Fragment lemma (used by the amended claim below): over the
registration-success fragment updateGauge, after two updates to the same
identity the series holds the last written value, the second update adds
no new series (the registration conflict is resolved by reusing the
registered gauge), and every other identity reads as it did before both
updates. -/
theorem updateGauge_same_identity_in_place (reg : Registry) (m s ip k v1 v2 : String) :
    lookupA (updateGauge reg m s ip k v1).gauges (gaugeId k m s ip) = some v1 ∧
    lookupA (updateGauge (updateGauge reg m s ip k v1) m s ip k v2).gauges (gaugeId k m s ip)
      = some v2 ∧
    (updateGauge (updateGauge reg m s ip k v1) m s ip k v2).gauges.length
      = (updateGauge reg m s ip k v1).gauges.length ∧
    ∀ id, id ≠ gaugeId k m s ip →
      lookupA (updateGauge (updateGauge reg m s ip k v1) m s ip k v2).gauges id
        = lookupA reg.gauges id := by
  refine ⟨lookupA_updateGauge_self reg m s ip k v1,
    lookupA_updateGauge_self _ m s ip k v2, ?_, ?_⟩
  · apply updateGauge_length
    rw [lookupA_updateGauge_self]
    rfl
  · intro id hid
    rw [lookupA_updateGauge_ne _ m s ip k v2 id hid, lookupA_updateGauge_ne reg m s ip k v1 id hid]

/-- Fragment lemma (used by the amended claim below): over the
registration-success fragment handleReport, a POSTed body that parses
yields 200, and with N the number of remaining fields (after the reserved
keys are dropped) whose first value parses as a float64, the written gauge
identities number exactly N, are pairwise distinct, each named by its
field under namespace ecowitt_relay with suffix _raw and the three labels;
every good field reads back its written value; every identity outside the
written set, in particular the would-be series of every reserved key, is
unchanged.  This describes the full program only on requests whose
registrations all carry valid descriptors: see tryHandleReport and the
amended claim theorem. -/
theorem report_updates_exactly_parseable_fields (reg : Registry) (wc : Int) (req : Request)
    (data : String) (vs : Values)
    (hm : req.method = "POST") (hb : req.body = some data) (hp : parseQuery data = some vs) :
    (handleReport reg wc req).status = 200 ∧
    (touchedIds (modelLabel vs) (stationLabel vs) (ipLabel req.xRealIP) (dropReserved vs)).length
      = (goodEntries (dropReserved vs)).length ∧
    (touchedIds (modelLabel vs) (stationLabel vs) (ipLabel req.xRealIP) (dropReserved vs)).Nodup ∧
    (∀ id ∈ touchedIds (modelLabel vs) (stationLabel vs) (ipLabel req.xRealIP) (dropReserved vs),
      ∃ p, p ∈ goodEntries (dropReserved vs) ∧
        id = gaugeId p.1 (modelLabel vs) (stationLabel vs) (ipLabel req.xRealIP)) ∧
    (∀ k v rest, (k, v :: rest) ∈ dropReserved vs → parseFloatOk v = true →
      lookupA (handleReport reg wc req).registry.gauges
        (gaugeId k (modelLabel vs) (stationLabel vs) (ipLabel req.xRealIP)) = some v) ∧
    (∀ id,
      id ∉ touchedIds (modelLabel vs) (stationLabel vs) (ipLabel req.xRealIP) (dropReserved vs) →
      lookupA (handleReport reg wc req).registry.gauges id = lookupA reg.gauges id) ∧
    (∀ k ∈ reservedKeys,
      lookupA (handleReport reg wc req).registry.gauges
          (gaugeId k (modelLabel vs) (stationLabel vs) (ipLabel req.xRealIP))
        = lookupA reg.gauges
            (gaugeId k (modelLabel vs) (stationLabel vs) (ipLabel req.xRealIP))) := by
  have hwf : ValuesWF vs := parseQuery_wf data vs hp
  rw [handleReport_parsed reg wc req data vs hm hb hp]
  refine ⟨rfl, touchedIds_length _ _ _ _,
    touchedIds_nodup _ _ _ _ (dropReserved_wf vs hwf).1,
    fun id hid => mem_touchedIds _ _ _ _ id hid, ?_, ?_, ?_⟩
  · intro k v rest hmem hok
    exact processReport_gauges_good reg wc req.xRealIP vs k v rest hwf hmem hok
  · intro id hid
    exact processReport_gauges_not_touched reg wc req.xRealIP vs id hid
  · intro k hk
    apply processReport_gauges_not_touched
    apply gaugeId_not_touched
    intro hx
    rcases List.mem_map.mp hx with ⟨p, hp2, hpe⟩
    have hd := mem_dropReserved vs p (List.mem_filter.mp hp2).1
    refine hd.2 ?_
    rw [hpe]
    exact hk

/-- Fragment lemma (used by the amended claim below): over the
registration-success fragment handleReport, a field whose first value does
not parse as a float64 is skipped alone: the request still answers 200,
every other field with a parseable first value is updated with its value,
and the gauge series of the failing field itself is unchanged. -/
theorem unparseable_field_skipped_alone (reg : Registry) (wc : Int) (req : Request)
    (data : String) (vs : Values) (k0 v0 : String) (rest0 : List String)
    (hm : req.method = "POST") (hb : req.body = some data) (hp : parseQuery data = some vs)
    (h0 : (k0, v0 :: rest0) ∈ dropReserved vs) (hbad : parseFloatOk v0 = false) :
    (handleReport reg wc req).status = 200 ∧
    (∀ k v rest, (k, v :: rest) ∈ dropReserved vs → parseFloatOk v = true →
      lookupA (handleReport reg wc req).registry.gauges
        (gaugeId k (modelLabel vs) (stationLabel vs) (ipLabel req.xRealIP)) = some v) ∧
    lookupA (handleReport reg wc req).registry.gauges
        (gaugeId k0 (modelLabel vs) (stationLabel vs) (ipLabel req.xRealIP))
      = lookupA reg.gauges (gaugeId k0 (modelLabel vs) (stationLabel vs) (ipLabel req.xRealIP)) := by
  have hwf : ValuesWF vs := parseQuery_wf data vs hp
  have hwfd := dropReserved_wf vs hwf
  rw [handleReport_parsed reg wc req data vs hm hb hp]
  refine ⟨rfl, ?_, ?_⟩
  · intro k v rest hmem hok
    exact processReport_gauges_good reg wc req.xRealIP vs k v rest hwf hmem hok
  · apply processReport_gauges_not_touched
    apply gaugeId_not_touched
    intro hx
    rcases List.mem_map.mp hx with ⟨p, hp2, hpe⟩
    have hpd : p ∈ dropReserved vs := (List.mem_filter.mp hp2).1
    have hpq : p = (k0, v0 :: rest0) :=
      List.inj_on_of_nodup_map hwfd.1 hpd h0 hpe
    have hfp : firstValueParses p = true := List.of_mem_filter hp2
    rw [hpq] at hfp
    simp [firstValueParses, hbad] at hfp

/-- C7: for every successfully parsed report the model label is the model
field of the body and the stationType label is the stationtype field, each
defaulting independently to the literal "unknown" when absent or empty
(the code labels equal the spec-side definitions); the source_ip label is
the X-Real-IP header, "unknown" when that is absent (empty); the
incremented report_count series carries exactly these labels, and so does
every gauge series changed by the request. -/
theorem labels_from_body_and_header (reg : Registry) (wc : Int) (req : Request)
    (data : String) (vs : Values)
    (hm : req.method = "POST") (hb : req.body = some data) (hp : parseQuery data = some vs) :
    modelLabel vs = specModelLabel vs ∧
    stationLabel vs = specStationLabel vs ∧
    (req.xRealIP = "" → ipLabel req.xRealIP = "unknown") ∧
    (req.xRealIP ≠ "" → ipLabel req.xRealIP = req.xRealIP) ∧
    lookupA (handleReport reg wc req).registry.reportCount
        (counterId (specModelLabel vs) (specStationLabel vs) (ipLabel req.xRealIP))
      = some ((lookupA reg.reportCount
          (counterId (specModelLabel vs) (specStationLabel vs) (ipLabel req.xRealIP))).getD 0
          + 1) ∧
    ∀ id, lookupA (handleReport reg wc req).registry.gauges id ≠ lookupA reg.gauges id →
      id.model = specModelLabel vs ∧ id.stationType = specStationLabel vs ∧
        id.sourceIp = ipLabel req.xRealIP := by
  rw [handleReport_parsed reg wc req data vs hm hb hp,
    ← modelLabel_eq_spec vs, ← stationLabel_eq_spec vs]
  refine ⟨rfl, rfl, fun h => by simp [ipLabel, h], fun h => by simp [ipLabel, h],
    processReport_reportCount_self reg wc req.xRealIP vs, ?_⟩
  intro id hid
  by_cases ht :
    id ∈ touchedIds (modelLabel vs) (stationLabel vs) (ipLabel req.xRealIP) (dropReserved vs)
  · rcases mem_touchedIds _ _ _ _ id ht with ⟨p, hp2, hpe⟩
    rw [hpe]
    exact ⟨rfl, rfl, rfl⟩
  · exact absurd (processReport_gauges_not_touched reg wc req.xRealIP vs id ht) hid

/-- Witness for the labels theorem: model and stationtype absent, header
present. -/
theorem labels_from_body_and_header_witness :
    modelLabel [("tempf", ["7"])] = specModelLabel [("tempf", ["7"])] ∧
    lookupA (handleReport ⟨[], []⟩ 0 ⟨"POST", some "tempf=7", "9.9.9.9"⟩).registry.reportCount
        (counterId "unknown" "unknown" "9.9.9.9") = some 1 := by
  have h := labels_from_body_and_header ⟨[], []⟩ 0 ⟨"POST", some "tempf=7", "9.9.9.9"⟩
      "tempf=7" [("tempf", ["7"])] rfl rfl (by decide)
  exact ⟨h.1, h.2.2.2.2.1⟩

/-- C10: the watchdog counter and the report_count metric move only when
the body both reads and parses as URL encoded form data: a POST whose body
fails to parse returns 200 with registry and counter unchanged, and any
change to the watchdog counter or to the report_count series implies that
the request was a POST whose body read and parsed successfully. -/
theorem counters_only_on_parsed_report (reg : Registry) (wc : Int) (req : Request) :
    (∀ data, req.method = "POST" → req.body = some data → parseQuery data = none →
      handleReport reg wc req = ⟨200, reg, wc⟩) ∧
    ((handleReport reg wc req).wcounter ≠ wc ∨
        (handleReport reg wc req).registry.reportCount ≠ reg.reportCount →
      req.method = "POST" ∧ ∃ data vs, req.body = some data ∧ parseQuery data = some vs) := by
  constructor
  · intro data hm hb hp
    exact handleReport_noparse reg wc req data hm hb hp
  · intro hchange
    by_cases hm : req.method = "POST"
    · cases hb : req.body with
      | none =>
        rw [handleReport_read_error reg wc req hm hb] at hchange
        rcases hchange with h | h <;> exact absurd rfl h
      | some data =>
        cases hp : parseQuery data with
        | none =>
          rw [handleReport_noparse reg wc req data hm hb hp] at hchange
          rcases hchange with h | h <;> exact absurd rfl h
        | some vs => exact ⟨hm, data, vs, rfl, hp⟩
    · rw [handleReport_non_post_eq reg wc req hm] at hchange
      rcases hchange with h | h <;> exact absurd rfl h

/-- Witness for the counters theorem on a POST with an undecodable body. -/
theorem counters_only_on_parsed_report_witness :
    handleReport ⟨[], []⟩ 0 ⟨"POST", some "%", ""⟩ = ⟨200, ⟨[], []⟩, 0⟩ :=
  (counters_only_on_parsed_report ⟨[], []⟩ 0 ⟨"POST", some "%", ""⟩).1 "%" rfl rfl (by decide)

/-! ### Agreement of the full model with the registration-success fragment. -/

theorem descOk_gaugeId (k m s ip : String) (hname : gaugeNameOk k = true)
    (hlab : labelsOk m s ip = true) : descOk (gaugeId k m s ip) = true := by
  simp only [gaugeNameOk] at hname
  simp only [labelsOk, Bool.and_eq_true] at hlab
  simp [descOk, gaugeId, hname, hlab.1.1, hlab.1.2, hlab.2]

theorem descOk_counterId (m s ip : String) (hlab : labelsOk m s ip = true) :
    descOk (counterId m s ip) = true := by
  simp only [labelsOk, Bool.and_eq_true] at hlab
  have hn : validMetricName "ecowitt_relay_report_count" = true := by decide
  simp [descOk, counterId, hn, hlab.1.1, hlab.1.2, hlab.2]

theorem tryUpdateGauge_eq (reg : Registry) (m s ip k v : String)
    (hname : gaugeNameOk k = true) (hlab : labelsOk m s ip = true) :
    tryUpdateGauge reg m s ip k v = some (updateGauge reg m s ip k v) := by
  simp [tryUpdateGauge, tryRegisterCollector, descOk_gaugeId k m s ip hname hlab, updateGauge]

theorem tryIncrementReportCount_eq (reg : Registry) (m s ip : String)
    (hlab : labelsOk m s ip = true) :
    tryIncrementReportCount reg m s ip = some (incrementReportCount reg m s ip) := by
  simp [tryIncrementReportCount, tryRegisterCollector, descOk_counterId m s ip hlab,
    incrementReportCount]

theorem goodEntries_names_tail {vs : Values} {p : String × List String}
    (hnames : ∀ q ∈ goodEntries (p :: vs), gaugeNameOk q.1 = true) :
    ∀ q ∈ goodEntries vs, gaugeNameOk q.1 = true := by
  intro q hq
  apply hnames
  rw [goodEntries_cons]
  by_cases hp : firstValueParses p
  · rw [if_pos hp]
    exact List.mem_cons_of_mem _ hq
  · rw [if_neg hp]
    exact hq

theorem goodEntries_names_head {vs : Values} {k v : String} {t : List String}
    (hnames : ∀ q ∈ goodEntries ((k, v :: t) :: vs), gaugeNameOk q.1 = true)
    (hok : parseFloatOk v = true) : gaugeNameOk k = true := by
  have hm : (k, v :: t) ∈ goodEntries ((k, v :: t) :: vs) := by
    rw [goodEntries_cons, if_pos (by simp [firstValueParses, hok])]
    exact List.mem_cons_self _ _
  exact hnames _ hm

theorem tryEmitAll_eq (m s ip : String) (hlab : labelsOk m s ip = true) :
    ∀ (vs : Values) (reg : Registry),
      (∀ p ∈ goodEntries vs, gaugeNameOk p.1 = true) →
      tryEmitAll m s ip reg vs = some (emitAll reg m s ip vs) := by
  intro vs
  induction vs with
  | nil =>
    intro reg _
    rfl
  | cons p rest ih =>
    intro reg hnames
    have htail := goodEntries_names_tail hnames
    obtain ⟨k, ws⟩ := p
    cases ws with
    | nil =>
      have he : tryEmitField m s ip reg (k, []) = some reg := rfl
      have he2 : emitField m s ip reg (k, []) = reg := rfl
      simp only [tryEmitAll, he, emitAll_cons, he2]
      exact ih reg htail
    | cons v t =>
      by_cases hv : parseFloatOk v
      · have hname : gaugeNameOk k = true := goodEntries_names_head hnames hv
        have he : tryEmitField m s ip reg (k, v :: t) = some (updateGauge reg m s ip k v) := by
          simp [tryEmitField, hv, tryUpdateGauge_eq reg m s ip k v hname hlab]
        have he2 : emitField m s ip reg (k, v :: t) = updateGauge reg m s ip k v := by
          simp [emitField, hv]
        simp only [tryEmitAll, he, emitAll_cons, he2]
        exact ih _ htail
      · have he : tryEmitField m s ip reg (k, v :: t) = some reg := by
          simp [tryEmitField, hv]
        have he2 : emitField m s ip reg (k, v :: t) = reg := by
          simp [emitField, hv]
        simp only [tryEmitAll, he, emitAll_cons, he2]
        exact ih _ htail

theorem tryProcessReport_eq (reg : Registry) (wc : Int) (xip : String) (vs : Values)
    (hlab : labelsOk (modelLabel vs) (stationLabel vs) (ipLabel xip) = true)
    (hnames : ∀ p ∈ goodEntries (dropReserved vs), gaugeNameOk p.1 = true) :
    tryProcessReport reg wc xip vs = some (processReport reg wc xip vs) := by
  have h1 := tryIncrementReportCount_eq reg (modelLabel vs) (stationLabel vs) (ipLabel xip) hlab
  have h2 := tryEmitAll_eq (modelLabel vs) (stationLabel vs) (ipLabel xip) hlab
      (dropReserved vs)
      (incrementReportCount reg (modelLabel vs) (stationLabel vs) (ipLabel xip)) hnames
  simp only [tryProcessReport, h1, h2]
  rfl

theorem tryHandleReport_parsed_eq (reg : Registry) (wc : Int) (req : Request) (data : String)
    (vs : Values) (hm : req.method = "POST") (hb : req.body = some data)
    (hp : parseQuery data = some vs)
    (hlab : labelsOk (modelLabel vs) (stationLabel vs) (ipLabel req.xRealIP) = true)
    (hnames : ∀ p ∈ goodEntries (dropReserved vs), gaugeNameOk p.1 = true) :
    tryHandleReport reg wc req = some (handleReport reg wc req) := by
  rw [handleReport_parsed reg wc req data vs hm hb hp]
  have h1 : tryHandleReport reg wc req = tryProcessReport reg wc req.xRealIP vs := by
    simp [tryHandleReport, hm, hb, hp]
  rw [h1]
  exact tryProcessReport_eq reg wc req.xRealIP vs hlab hnames

theorem tryHandleReport_non_post (reg : Registry) (wc : Int) (req : Request)
    (h : req.method ≠ "POST") : tryHandleReport reg wc req = some ⟨405, reg, wc⟩ := by
  simp [tryHandleReport, h]

theorem tryHandleReport_noparse (reg : Registry) (wc : Int) (req : Request) (data : String)
    (hm : req.method = "POST") (hb : req.body = some data) (hp : parseQuery data = none) :
    tryHandleReport reg wc req = some ⟨200, reg, wc⟩ := by
  simp [tryHandleReport, hm, hb, hp]

/-! ### The corrected claims. -/

/-- C2 counterexample: the body a-b=5 is a valid URL-encoded POST body
whose remaining fields contain exactly one field with a parseable first
value (N = 1), yet the program creates no gauge at all: the name
ecowitt_relay_a-b_raw fails IsValidMetricName, Register returns an error
that is not an AlreadyRegisteredError, and main.go lines 186-188 exit the
process with status 1 (none) instead of responding with a registry
update. -/
theorem report_fatal_on_invalid_field_name :
    (goodEntries (dropReserved [("a-b", ["5"])])).length = 1 ∧
    parseQuery "a-b=5" = some [("a-b", ["5"])] ∧
    tryHandleReport ⟨[], []⟩ 0 ⟨"POST", some "a-b=5", ""⟩ = none := by
  refine ⟨by decide, by decide, by decide⟩

/-- C2 amended: for every valid URL-encoded POST body whose remaining
fields after dropping the reserved keys contain exactly N fields with
parseable first values, and whose registrations all carry valid
descriptors (every such field name yields a valid metric name and the
three label values are valid UTF-8 - otherwise the process exits with
status 1 at the offending registration, as the counterexample shows), the
request completes, agrees with the registration-success fragment, answers
200, and creates or updates exactly N gauges: pairwise distinct, each
named by its field with suffix _raw in namespace ecowitt_relay and
carrying the labels (model, stationType, source_ip), each reading back its
written value; every other series, in particular one for each reserved
key, is unchanged. -/
theorem report_updates_exactly_parseable_fields_when_valid (reg : Registry) (wc : Int)
    (req : Request) (data : String) (vs : Values)
    (hm : req.method = "POST") (hb : req.body = some data) (hp : parseQuery data = some vs)
    (hlab : labelsOk (modelLabel vs) (stationLabel vs) (ipLabel req.xRealIP) = true)
    (hnames : ∀ p ∈ goodEntries (dropReserved vs), gaugeNameOk p.1 = true) :
    tryHandleReport reg wc req = some (handleReport reg wc req) ∧
    (handleReport reg wc req).status = 200 ∧
    (touchedIds (modelLabel vs) (stationLabel vs) (ipLabel req.xRealIP) (dropReserved vs)).length
      = (goodEntries (dropReserved vs)).length ∧
    (touchedIds (modelLabel vs) (stationLabel vs) (ipLabel req.xRealIP) (dropReserved vs)).Nodup ∧
    (∀ id ∈ touchedIds (modelLabel vs) (stationLabel vs) (ipLabel req.xRealIP) (dropReserved vs),
      ∃ p, p ∈ goodEntries (dropReserved vs) ∧
        id = gaugeId p.1 (modelLabel vs) (stationLabel vs) (ipLabel req.xRealIP)) ∧
    (∀ k v rest, (k, v :: rest) ∈ dropReserved vs → parseFloatOk v = true →
      lookupA (handleReport reg wc req).registry.gauges
        (gaugeId k (modelLabel vs) (stationLabel vs) (ipLabel req.xRealIP)) = some v) ∧
    (∀ id,
      id ∉ touchedIds (modelLabel vs) (stationLabel vs) (ipLabel req.xRealIP) (dropReserved vs) →
      lookupA (handleReport reg wc req).registry.gauges id = lookupA reg.gauges id) ∧
    (∀ k ∈ reservedKeys,
      lookupA (handleReport reg wc req).registry.gauges
          (gaugeId k (modelLabel vs) (stationLabel vs) (ipLabel req.xRealIP))
        = lookupA reg.gauges
            (gaugeId k (modelLabel vs) (stationLabel vs) (ipLabel req.xRealIP))) := by
  refine ⟨tryHandleReport_parsed_eq reg wc req data vs hm hb hp hlab hnames, ?_⟩
  exact report_updates_exactly_parseable_fields reg wc req data vs hm hb hp

/-- Witness for the amended exactly-N-gauges theorem on the specification
example body. -/
theorem report_updates_exactly_parseable_fields_when_valid_witness :
    tryHandleReport ⟨[], []⟩ 0
        ⟨"POST", some "model=X&stationtype=Y&tempf=72.5&PASSKEY=abc", ""⟩
      = some (handleReport ⟨[], []⟩ 0
          ⟨"POST", some "model=X&stationtype=Y&tempf=72.5&PASSKEY=abc", ""⟩) ∧
    lookupA (handleReport ⟨[], []⟩ 0
        ⟨"POST", some "model=X&stationtype=Y&tempf=72.5&PASSKEY=abc", ""⟩).registry.gauges
      (gaugeId "tempf" "X" "Y" "unknown") = some "72.5" := by
  have h := report_updates_exactly_parseable_fields_when_valid ⟨[], []⟩ 0
      ⟨"POST", some "model=X&stationtype=Y&tempf=72.5&PASSKEY=abc", ""⟩
      "model=X&stationtype=Y&tempf=72.5&PASSKEY=abc"
      [("model", ["X"]), ("stationtype", ["Y"]), ("tempf", ["72.5"]), ("PASSKEY", ["abc"])]
      rfl rfl (by decide) (by decide) (by decide)
  exact ⟨h.1, h.2.2.2.2.2.1 "tempf" "72.5" [] (by decide) (by decide)⟩

/-- C4 counterexample: for the identity with field key a-b the very first
update does not register-and-reuse at all: the gauge name is invalid,
Register fails with an error that is not an AlreadyRegisteredError, and
the program exits with status 1 (none) leaving no series behind. -/
theorem updateGauge_fatal_on_invalid_name :
    tryUpdateGauge ⟨[], []⟩ "m" "s" "i" "a-b" "5" = none := by decide

/-- C4 amended: for every identity whose descriptor is valid (the field
key yields a valid metric name and the label values are valid UTF-8 -
otherwise the program exits with status 1 instead of registering, as the
counterexample shows), updating a gauge is idempotent in the identity:
both updates complete and agree with the registration-success fragment,
the series holds the last written value, the second update adds no new
series (the registration conflict is resolved by reusing the registered
gauge), and every other identity reads as it did before both updates. -/
theorem updateGauge_same_identity_in_place_when_valid (reg : Registry) (m s ip k v1 v2 : String)
    (hname : gaugeNameOk k = true) (hlab : labelsOk m s ip = true) :
    tryUpdateGauge reg m s ip k v1 = some (updateGauge reg m s ip k v1) ∧
    tryUpdateGauge (updateGauge reg m s ip k v1) m s ip k v2
      = some (updateGauge (updateGauge reg m s ip k v1) m s ip k v2) ∧
    lookupA (updateGauge reg m s ip k v1).gauges (gaugeId k m s ip) = some v1 ∧
    lookupA (updateGauge (updateGauge reg m s ip k v1) m s ip k v2).gauges (gaugeId k m s ip)
      = some v2 ∧
    (updateGauge (updateGauge reg m s ip k v1) m s ip k v2).gauges.length
      = (updateGauge reg m s ip k v1).gauges.length ∧
    ∀ id, id ≠ gaugeId k m s ip →
      lookupA (updateGauge (updateGauge reg m s ip k v1) m s ip k v2).gauges id
        = lookupA reg.gauges id := by
  refine ⟨tryUpdateGauge_eq reg m s ip k v1 hname hlab,
    tryUpdateGauge_eq _ m s ip k v2 hname hlab, ?_⟩
  exact updateGauge_same_identity_in_place reg m s ip k v1 v2

/-- Witness for the amended idempotent-update theorem on a concrete valid
identity and a distinct untouched identity. -/
theorem updateGauge_same_identity_in_place_when_valid_witness :
    tryUpdateGauge ⟨[], []⟩ "m" "s" "i" "k" "1"
      = some (updateGauge ⟨[], []⟩ "m" "s" "i" "k" "1") ∧
    lookupA (updateGauge (updateGauge ⟨[], []⟩ "m" "s" "i" "k" "1") "m" "s" "i" "k" "2").gauges
        (gaugeId "k" "m" "s" "i") = some "2" ∧
    lookupA (updateGauge (updateGauge ⟨[], []⟩ "m" "s" "i" "k" "1") "m" "s" "i" "k" "2").gauges
        (gaugeId "q" "m" "s" "i")
      = lookupA (Registry.mk [] []).gauges (gaugeId "q" "m" "s" "i") := by
  have h := updateGauge_same_identity_in_place_when_valid ⟨[], []⟩ "m" "s" "i" "k" "1" "2"
      (by decide) (by decide)
  exact ⟨h.1, h.2.2.2.1, h.2.2.2.2.2 (gaugeId "q" "m" "s" "i") (by decide)⟩

/-- C5 counterexample: in the body bad=x&a-b=5 the field bad has an
unparseable first value, so the claim demands that the other (parseable)
field still be updated and the request as a whole not fail; instead the
program exits with status 1 while registering ecowitt_relay_a-b_raw,
updating nothing. -/
theorem skip_claim_fails_on_invalid_name :
    parseFloatOk "x" = false ∧ parseFloatOk "5" = true ∧
    tryHandleReport ⟨[], []⟩ 0 ⟨"POST", some "bad=x&a-b=5", ""⟩ = none := by
  refine ⟨by decide, by decide, by decide⟩

/-- C5 amended: for every parsed body in which some field has an
unparseable first value, provided every remaining parseable field name
yields a valid metric name and the label values are valid UTF-8 (otherwise
the process exits with status 1 at the offending registration, as the
counterexample shows), only the unparseable field is skipped: the request
completes and agrees with the registration-success fragment, answers 200,
every other field with a parseable first value is updated with its value,
and the gauge series of the failing field itself is unchanged. -/
theorem unparseable_field_skipped_alone_when_valid (reg : Registry) (wc : Int) (req : Request)
    (data : String) (vs : Values) (k0 v0 : String) (rest0 : List String)
    (hm : req.method = "POST") (hb : req.body = some data) (hp : parseQuery data = some vs)
    (h0 : (k0, v0 :: rest0) ∈ dropReserved vs) (hbad : parseFloatOk v0 = false)
    (hlab : labelsOk (modelLabel vs) (stationLabel vs) (ipLabel req.xRealIP) = true)
    (hnames : ∀ p ∈ goodEntries (dropReserved vs), gaugeNameOk p.1 = true) :
    tryHandleReport reg wc req = some (handleReport reg wc req) ∧
    (handleReport reg wc req).status = 200 ∧
    (∀ k v rest, (k, v :: rest) ∈ dropReserved vs → parseFloatOk v = true →
      lookupA (handleReport reg wc req).registry.gauges
        (gaugeId k (modelLabel vs) (stationLabel vs) (ipLabel req.xRealIP)) = some v) ∧
    lookupA (handleReport reg wc req).registry.gauges
        (gaugeId k0 (modelLabel vs) (stationLabel vs) (ipLabel req.xRealIP))
      = lookupA reg.gauges
          (gaugeId k0 (modelLabel vs) (stationLabel vs) (ipLabel req.xRealIP)) := by
  refine ⟨tryHandleReport_parsed_eq reg wc req data vs hm hb hp hlab hnames, ?_⟩
  exact unparseable_field_skipped_alone reg wc req data vs k0 v0 rest0 hm hb hp h0 hbad

/-- Witness for the amended skip-one-field theorem: one bad field, one good
valid field. -/
theorem unparseable_field_skipped_alone_when_valid_witness :
    tryHandleReport ⟨[], []⟩ 0 ⟨"POST", some "soilbatt=x&tempf=2", ""⟩
      = some (handleReport ⟨[], []⟩ 0 ⟨"POST", some "soilbatt=x&tempf=2", ""⟩) ∧
    lookupA (handleReport ⟨[], []⟩ 0 ⟨"POST", some "soilbatt=x&tempf=2", ""⟩).registry.gauges
        (gaugeId "tempf" "unknown" "unknown" "unknown") = some "2" ∧
    lookupA (handleReport ⟨[], []⟩ 0 ⟨"POST", some "soilbatt=x&tempf=2", ""⟩).registry.gauges
        (gaugeId "soilbatt" "unknown" "unknown" "unknown")
      = lookupA (Registry.mk [] []).gauges (gaugeId "soilbatt" "unknown" "unknown" "unknown") := by
  have h := unparseable_field_skipped_alone_when_valid ⟨[], []⟩ 0
      ⟨"POST", some "soilbatt=x&tempf=2", ""⟩
      "soilbatt=x&tempf=2" [("soilbatt", ["x"]), ("tempf", ["2"])] "soilbatt" "x" []
      rfl rfl (by decide) (by decide) (by decide) (by decide) (by decide)
  exact ⟨h.1, h.2.2.1 "tempf" "2" [] (by decide) (by decide), h.2.2.2⟩

end EcowittRelay
